import Mathlib

/-!
Verification of the Metal kernel dispatch layer
(`candle-metal-kernels/src/lib.rs`).

The development shallowly embeds the Rust source:
* opaque Metal handles (`Device`, `Buffer`, `Library`, `Function`,
  `ComputePipelineState`) become natural-number identifiers; the device
  itself becomes a record of pure functions describing what each
  device call returns;
* the two `RwLock`-guarded caches of `Kernels` become explicit state
  threaded through each operation; every public cache operation runs its
  whole lookup/compile/insert body under one exclusive write lock in the
  source, so each such call is embedded as a single atomic state
  transition;
* `f32` values are represented by their IEEE-754 bit pattern (a `Nat`);
  Lean structural equality on that representation is bit-pattern
  identity and serves only as the underlying decidable representation
  equality, while the equality rule the cache actually uses — the
  derived `PartialEq`, which compares floats by IEEE value, so
  `+0.0 == -0.0` and `NaN != NaN` — is modelled separately by the
  executable `f32Eq`, `constantValueEq` and `kernelKeyEq` below;
* machine arithmetic on `u64`/`usize` is `Nat` arithmetic with an
  explicit `% 2 ^ 64` at the one addition that can wrap
  (`length + width - 1` in `linear_split`, and the matching sum in the
  reduction sizing); a Rust panic (division by zero, out-of-bounds
  slice index) is embedded as `Option.none`;
* recording onto a Metal command buffer is embedded as appending
  events to a list.
-/

/-- Size type mirroring `MTLSize` (width, height, depth). -/
structure MTLSize where
  width : Nat
  height : Nat
  depth : Nat
deriving DecidableEq, Repr

/-- The fixed set of kernel source modules (`enum Source`). -/
inductive Source where
  | Affine
  | Indexing
  | Unary
  | Binary
  | Ternary
  | Cast
  | Reduce
  | MetalFlashAttention
deriving DecidableEq, Repr

/-- Names for the eight process-embedded kernel assets
(`AFFINE`, `INDEXING`, `UNARY`, `BINARY`, `TERNARY`, `CAST`, `REDUCE`
as `include_str!` text, `MFA_LIB` as `include_bytes!` binary data).
Their contents are opaque; only their identity matters here. -/
inductive AssetRef where
  | affineAsset
  | indexingAsset
  | unaryAsset
  | binaryAsset
  | ternaryAsset
  | castAsset
  | reduceAsset
  | mfaAsset
deriving DecidableEq, Repr

/-- Mirrors `enum LibraryDefinition`: textual source vs binary data. -/
inductive LibraryDefinition where
  | sourceDef (asset : AssetRef)
  | dataDef (asset : AssetRef)
deriving DecidableEq, Repr

/-- Mirrors `Kernels::get_library_source`. -/
def get_library_source : Source → LibraryDefinition
  | .Affine => .sourceDef .affineAsset
  | .Unary => .sourceDef .unaryAsset
  | .Binary => .sourceDef .binaryAsset
  | .Ternary => .sourceDef .ternaryAsset
  | .Indexing => .sourceDef .indexingAsset
  | .Cast => .sourceDef .castAsset
  | .Reduce => .sourceDef .reduceAsset
  | .MetalFlashAttention => .dataDef .mfaAsset

/-- Mirrors `enum ConstantValueId`: a specialization constant is addressed
by positional index (`NSUInteger`) or by symbolic name. -/
inductive ConstantValueId where
  | index (i : Nat)
  | name (n : String)
deriving DecidableEq, Repr

/-- Mirrors `enum ConstantValue`. The `f32` payload is its IEEE-754 bit
pattern. Lean structural equality of this type is bit-pattern identity
and is only the representation equality; the equality rule of the
source — the derived Rust `PartialEq`, which compares `Float` payloads
by IEEE value — is modelled by `constantValueEq` below. -/
inductive ConstantValue where
  | float (bits : Nat)
  | uint (v : Nat)
  | ushort (v : Nat)
  | bool (v : Bool)
deriving DecidableEq, Repr

/-- Mirrors `struct ConstantValues(Vec<(ConstantValueId, ConstantValue)>)`. -/
structure ConstantValues where
  vals : List (ConstantValueId × ConstantValue)
deriving DecidableEq, Repr

/-- Mirrors `struct KernelKey { name, constants }`. Equality is the
derived element-wise `PartialEq`/`Eq`. -/
structure KernelKey where
  name : String
  constants : Option ConstantValues
deriving DecidableEq, Repr

/-- Whether a 32-bit pattern encodes an IEEE-754 binary32 NaN: exponent
field all ones and nonzero mantissa. -/
def f32IsNaN (bits : Nat) : Bool :=
  decide (bits / 2 ^ 23 % 2 ^ 8 = 255) && decide (bits % 2 ^ 23 ≠ 0)

/-- IEEE-754 equality of two `f32` values given by their bit patterns,
as used by the derived `PartialEq` on `f32`: a NaN compares unequal to
everything (itself included); `+0.0` and `-0.0` (the only two distinct
patterns denoting equal values) compare equal; every other value
compares equal exactly to its own bit pattern. -/
def f32Eq (a b : Nat) : Bool :=
  !f32IsNaN a && !f32IsNaN b &&
    ((decide (a % 2 ^ 31 = 0) && decide (b % 2 ^ 31 = 0)) || decide (a = b))

/-- Mirrors the derived `PartialEq` for `ConstantValue`: same variant
and equal payloads, where `Float` payloads compare by IEEE value. -/
def constantValueEq : ConstantValue → ConstantValue → Bool
  | .float a, .float b => f32Eq a b
  | .uint a, .uint b => decide (a = b)
  | .ushort a, .ushort b => decide (a = b)
  | .bool a, .bool b => decide (a = b)
  | _, _ => false

/-- Mirrors the derived `PartialEq` for an `(id, value)` pair: the
identifier (which holds no float) compares structurally, the value by
`constantValueEq`. -/
def constantPairEq (a b : ConstantValueId × ConstantValue) : Bool :=
  decide (a.1 = b.1) && constantValueEq a.2 b.2

/-- Element-wise list equality by a given rule, mirroring `PartialEq`
for `Vec`: equal lengths and equal corresponding elements. -/
def listEqBy {α : Type} (f : α → α → Bool) : List α → List α → Bool
  | [], [] => true
  | a :: t1, b :: t2 => f a b && listEqBy f t1 t2
  | _, _ => false

/-- Mirrors the derived `PartialEq` for `ConstantValues`. -/
def constantValuesEq (c1 c2 : ConstantValues) : Bool :=
  listEqBy constantPairEq c1.vals c2.vals

/-- Mirrors the derived `PartialEq` for `Option`: both absent, or both
present and equal by the given rule. -/
def optionEqBy {α : Type} (f : α → α → Bool) : Option α → Option α → Bool
  | none, none => true
  | some a, some b => f a b
  | _, _ => false

/-- Mirrors the derived `PartialEq` for `KernelKey` — the equality rule
of the pipeline cache: equal names and equal optional constants, with
float constants compared by IEEE value. -/
def kernelKeyEq (k1 k2 : KernelKey) : Bool :=
  decide (k1.name = k2.name) && optionEqBy constantValuesEq k1.constants k2.constants

/-- Tokens fed to a `Hasher`. Two Rust values produce the same hash under
every hasher exactly when they feed the hasher identical token streams,
so hash agreement is embedded as equality of token streams. -/
inductive HTok where
  | s (v : String)
  | n (v : Nat)
  | b (v : Bool)
deriving DecidableEq, Repr

/-- Mirrors the manual `impl Hash for ConstantValue`: a `Float` feeds
nothing at all to the hasher (not even a discriminant); the discrete
variants feed their payload. -/
def constantValueFeed : ConstantValue → List HTok
  | .float _ => []
  | .uint v => [.n v]
  | .ushort v => [.n v]
  | .bool v => [.b v]

/-- Mirrors the derived `Hash` for `ConstantValueId`: discriminant then
payload. -/
def constantValueIdFeed : ConstantValueId → List HTok
  | .index i => [.n 0, .n i]
  | .name n => [.n 1, .s n]

/-- Mirrors the derived `Hash` for `ConstantValues` (a `Vec` feeds its
length and then each `(id, value)` pair in order). -/
def constantValuesFeed (cs : ConstantValues) : List HTok :=
  .n cs.vals.length ::
    (cs.vals.map fun p => constantValueIdFeed p.1 ++ constantValueFeed p.2).flatten

/-- Mirrors the derived `Hash` for `KernelKey`: the name, then the
`Option` discriminant, then (when present) the constants. -/
def kernelKeyFeed (k : KernelKey) : List HTok :=
  HTok.s k.name ::
    match k.constants with
    | none => [.n 0]
    | some cs => .n 1 :: constantValuesFeed cs

/-- Supported Metal data types for specialization constants
(`MTLDataType` as used through the `metal_dtype!` instances). -/
inductive MTLDataTypeM where
  | floatTy
  | uintTy
  | ushortTy
  | boolTy
deriving DecidableEq, Repr

/-- One call recorded while building a `FunctionConstantValues` object
(`set_constant_value_at_index` / `set_constant_value_with_name`). -/
inductive FCVCall where
  | atIndex (idx : Nat) (ty : MTLDataTypeM) (bits : Nat)
  | withName (nm : String) (ty : MTLDataTypeM) (bits : Nat)
deriving DecidableEq, Repr

/-- Payload bits of a constant value, as passed through the raw pointer in
`add_indexed_constant!` / `add_named_constant!`. -/
def constantBits : ConstantValue → Nat
  | .float bits => bits
  | .uint v => v
  | .ushort v => v
  | .bool v => if v then 1 else 0

/-- Metal data type selected for a constant value. -/
def constantTy : ConstantValue → MTLDataTypeM
  | .float _ => .floatTy
  | .uint _ => .uintTy
  | .ushort _ => .ushortTy
  | .bool _ => .boolTy

/-- Mirrors `ConstantValues::create_function_constant_values`: one
`set_constant_value_*` call per `(id, value)` pair, in order. -/
def create_function_constant_values (cs : ConstantValues) : List FCVCall :=
  cs.vals.map fun p =>
    match p.1 with
    | .index i => .atIndex i (constantTy p.2) (constantBits p.2)
    | .name n => .withName n (constantTy p.2) (constantBits p.2)

/-- Mirrors `enum MetalKernelError`. -/
inductive MetalKernelError where
  | lockError (msg : String)
  | loadLibraryError (msg : String)
  | loadFunctionError (msg : String)
  | failedToCreateComputeFunction
  | failedToCreatePipeline (msg : String)
deriving DecidableEq, Repr

/-- The compute device, embedded as a record of pure functions: what each
fallible device call returns. Handles (`Library`, `Function`,
`ComputePipelineState`) are natural-number identifiers. A given device
value is deterministic, matching a device whose compilation outcomes are
a function of their inputs. -/
structure Device where
  newLibraryWithSource : AssetRef → Except String Nat
  newLibraryWithData : AssetRef → Except String Nat
  getFunction : Nat → String → Option (List FCVCall) → Except String Nat
  newComputePipelineState : Nat → Except String Nat
  maxTotalThreads : Nat → Nat

/-- Association-list lookup used to model `HashMap::get`. -/
def alookup {α β : Type} [DecidableEq α] : List (α × β) → α → Option β
  | [], _ => none
  | (k, v) :: t, a => if k = a then some v else alookup t a

/-- State of a `Kernels` registry, instrumented for the cache claims:
`libs` and `pipes` are the two `RwLock`-guarded maps; `libCreates`
records each successful library compilation (tagged by source module);
`pipeInvokes` records every invocation of
`new_compute_pipeline_state_with_function`; `pipeCreates` records each
successful pipeline creation (tagged by requesting key). -/
structure RunState where
  libs : List (Source × Nat)
  pipes : List (KernelKey × Nat)
  libCreates : List Source
  pipeInvokes : List KernelKey
  pipeCreates : List KernelKey
deriving DecidableEq, Repr

/-- The freshly constructed registry (`Kernels::new`). -/
def RunState.empty : RunState :=
  { libs := [], pipes := [], libCreates := [], pipeInvokes := [], pipeCreates := [] }

/-- The compile-on-miss step of `Kernels::load_library`: textual source
goes through `new_library_with_source`, binary data through
`new_library_with_data`, as `get_library_source` dictates. -/
def compileLibrary (d : Device) (source : Source) : Except String Nat :=
  match get_library_source source with
  | .sourceDef asset => d.newLibraryWithSource asset
  | .dataDef asset => d.newLibraryWithData asset

/-- Mirrors `Kernels::load_library`. The whole body runs under the
exclusive write lock of the library cache, so it is one atomic state
transition: look up, on miss compile and insert before the lock is
released. -/
def load_library (d : Device) (st : RunState) (source : Source) :
    Except MetalKernelError Nat × RunState :=
  match alookup st.libs source with
  | some lib => (.ok lib, st)
  | none =>
    match compileLibrary d source with
    | .error e => (.error (.loadLibraryError e), st)
    | .ok lib =>
      (.ok lib,
        { st with libs := (source, lib) :: st.libs, libCreates := st.libCreates ++ [source] })

/-- Mirrors `Kernels::load_function`: load the library, then resolve the
named function with the optional specialization constants. -/
def load_function (d : Device) (st : RunState) (source : Source) (key : KernelKey) :
    Except MetalKernelError Nat × RunState :=
  match load_library d st source with
  | (.error e, st1) => (.error e, st1)
  | (.ok lib, st1) =>
    match d.getFunction lib key.name (key.constants.map create_function_constant_values) with
    | .error e => (.error (.loadFunctionError e), st1)
    | .ok f => (.ok f, st1)

/-- Mirrors `Kernels::load_pipeline`. The whole body runs under the
exclusive write lock of the pipeline cache: look up by key, on miss load
the function and create the pipeline, inserting before the lock is
released. -/
def load_pipeline (d : Device) (st : RunState) (source : Source) (key : KernelKey) :
    Except MetalKernelError Nat × RunState :=
  match alookup st.pipes key with
  | some p => (.ok p, st)
  | none =>
    match load_function d st source key with
    | (.error e, st1) => (.error e, st1)
    | (.ok f, st1) =>
      let st2 := { st1 with pipeInvokes := st1.pipeInvokes ++ [key] }
      match d.newComputePipelineState f with
      | .error e => (.error (.failedToCreatePipeline e), st2)
      | .ok p =>
        (.ok p,
          { st2 with pipes := (key, p) :: st2.pipes, pipeCreates := st2.pipeCreates ++ [key] })

/-- Doubling loop behind `next_power_of_two`: starting from the power of
two `acc`, double until reaching at least `n`. The fuel argument only
bounds the number of doublings and is always supplied large enough. -/
def npotGo (n : Nat) : Nat → Nat → Nat
  | acc, 0 => acc
  | acc, fuel + 1 => if n ≤ acc then acc else npotGo n (2 * acc) fuel

/-- Mirrors `u64::next_power_of_two` on its non-overflowing domain (all
arguments arising below are at most `2 ^ 63`): the smallest power of two
greater than or equal to the argument, with `0` and `1` both mapping
to `1`. -/
def next_power_of_two (n : Nat) : Nat :=
  npotGo n 1 n

/-- The doubling loop keeps its accumulator a power of two. -/
theorem npotGo_pow (n fuel acc : Nat) (h : ∃ k, acc = 2 ^ k) :
    ∃ k, npotGo n acc fuel = 2 ^ k := by
  induction fuel generalizing acc with
  | zero => exact h
  | succ fuel ih =>
    unfold npotGo
    by_cases hle : n ≤ acc
    · simpa [hle] using h
    · obtain ⟨k, hk⟩ := h
      simpa [hle] using ih (2 * acc) ⟨k + 1, by rw [hk]; ring⟩

/-- With enough fuel the doubling loop reaches `n`. -/
theorem npotGo_ge (n : Nat) (fuel acc : Nat) (hacc : 1 ≤ acc)
    (hfuel : n ≤ 2 ^ fuel * acc) : n ≤ npotGo n acc fuel := by
  induction fuel generalizing acc with
  | zero => simpa using hfuel
  | succ fuel ih =>
    unfold npotGo
    by_cases hle : n ≤ acc
    · simp [hle]
    · have : n ≤ 2 ^ fuel * (2 * acc) := by
        have h2 : 2 ^ (fuel + 1) * acc = 2 ^ fuel * (2 * acc) := by ring
        rw [h2] at hfuel
        exact hfuel
      simpa [hle] using ih (2 * acc) (by omega) this

/-- `next_power_of_two` returns a power of two. -/
theorem next_power_of_two_is_pow (n : Nat) : ∃ j, next_power_of_two n = 2 ^ j :=
  npotGo_pow n n 1 ⟨0, rfl⟩

/-- `next_power_of_two` rounds up, never down. -/
theorem le_next_power_of_two (n : Nat) : n ≤ next_power_of_two n :=
  npotGo_ge n n 1 (le_refl 1) (by simpa using Nat.le_of_lt (Nat.lt_two_pow n))

/-- Mirrors `linear_split`: the policy-1 (linear) grid over `length`
elements for a pipeline whose `max_total_threads_per_threadgroup()` is
`maxThreads`. `width = min(maxThreads, length)`; the group count is the
ceiling division, whose `u64` numerator `length + width - 1` wraps at
`2 ^ 64`. A zero width makes the division a Rust division by zero, which
panics: embedded as `none`. Returns `(thread_group_count,
thread_group_size)` in that order, as the source does. -/
def linear_split (maxThreads length : Nat) : Option (MTLSize × MTLSize) :=
  let width := min maxThreads length
  if width = 0 then none
  else
    let count := ((length + width - 1) % 2 ^ 64) / width
    some (⟨count, 1, 1⟩, ⟨width, 1, 1⟩)

/-- The policy-2 (tree reduction) sizing recorded by
`call_reduce_contiguous` (source lines 612 and 622-638): a zero
`out_length` makes `length / out_length` a Rust division by zero, which
panics (embedded as `none`); otherwise the group count is `out_length`
and the group width is
`next_power_of_two(min(maxThreads, (elements_to_sum + 2 - 1) / 2))`,
the `u64` sum wrapping at `2 ^ 64`. -/
def reduce_grid_policy (maxThreads length out_length : Nat) : Option (MTLSize × MTLSize) :=
  if out_length = 0 then none
  else
    let elements_to_sum := length / out_length
    let width := next_power_of_two (min maxThreads ((elements_to_sum + 2 - 1) % 2 ^ 64 / 2))
    some (⟨out_length, 1, 1⟩, ⟨width, 1, 1⟩)

/-- The policy-3 (grouped reduction) sizing recorded by
`call_last_softmax` (source lines 662-680): a zero `elements_to_sum`
makes `length / elements_to_sum` a Rust division by zero, which panics
(embedded as `none`); otherwise the group count is
`length / elements_to_sum` and the group width is
`next_power_of_two(min(maxThreads, elements_to_sum))`. -/
def softmax_grid_policy (maxThreads length elements_to_sum : Nat) : Option (MTLSize × MTLSize) :=
  if elements_to_sum = 0 then none
  else
    let out_length := length / elements_to_sum
    let width := next_power_of_two (min maxThreads elements_to_sum)
    some (⟨out_length, 1, 1⟩, ⟨width, 1, 1⟩)

/-- One typed argument of a dispatch call, one variant per `EncoderParam`
instance in the source: `usize`, `u32` and `f32` scalars (the `f32`
payload is its bit pattern), a `&[usize]` span passed by value, a bare
`&Buffer`, and a `(&Buffer, usize)` pair carrying an explicit offset.
Buffers are identifiers. The `&mut` buffer instances bind exactly like
the shared ones and are not distinguished. -/
inductive Param where
  | usizeP (v : Nat)
  | u32P (v : Nat)
  | f32P (bits : Nat)
  | sliceUsize (vs : List Nat)
  | bufP (buf : Nat)
  | bufOff (buf : Nat) (offset : Nat)
deriving DecidableEq, Repr

/-- One raw argument binding recorded on the compute command encoder:
either `set_bytes(position, size, data)` or
`set_buffer(position, buffer, offset)`. -/
inductive Binding where
  | bytes (position : Nat) (size : Nat) (data : List Nat)
  | buffer (position : Nat) (buf : Nat) (offset : Nat)
deriving DecidableEq, Repr

/-- The positional slot a binding was made at. -/
def Binding.position : Binding → Nat
  | .bytes p _ _ => p
  | .buffer p _ _ => p

/-- Mirrors `set_param` together with the `EncoderParam` instances, on a
64-bit target (`size_of::<usize>() = 8`, `size_of::<u32>() =
size_of::<f32>() = 4`, `size_of_val` of a `&[usize]` is eight times its
length): scalars and spans go through `set_bytes` with their exact byte
size, a bare buffer through `set_buffer` at offset `0`, a buffer-offset
pair through `set_buffer` at that offset. -/
def set_param (position : Nat) : Param → Binding
  | .usizeP v => .bytes position 8 [v]
  | .u32P v => .bytes position 4 [v]
  | .f32P bits => .bytes position 4 [bits]
  | .sliceUsize vs => .bytes position (8 * vs.length) vs
  | .bufP b => .buffer position b 0
  | .bufOff b o => .buffer position b o

/-- Mirrors the expansion of `set_params!` from a starting slot: the
macro initializes `_index = 0` and increments it after each
`set_param` call. -/
def set_params_from (index : Nat) : List Param → List Binding
  | [] => []
  | p :: ps => set_param index p :: set_params_from (index + 1) ps

/-- Mirrors `set_params!`: bind each argument in call order starting at
slot `0`. -/
def set_params (ps : List Param) : List Binding :=
  set_params_from 0 ps

/-- One event recorded against the caller-supplied command buffer:
opening a compute command encoder, selecting the pipeline, one argument
binding, the dispatch itself, and closing the encoding scope. -/
inductive CBEvent where
  | beginEncoding
  | setPipeline (p : Nat)
  | bind (b : Binding)
  | dispatch (thread_group_count : MTLSize) (thread_group_size : MTLSize)
  | endEncoding
deriving DecidableEq, Repr

/-- Result type of a dispatch entry point: `none` embeds a Rust panic
(division by zero or slice-index violation inside the call); otherwise
the typed result together with the registry state and the command
buffer contents after the call. -/
abbrev CallResult := Option (Except MetalKernelError Unit × RunState × List CBEvent)

/-- Events recorded for one successful dispatch: open the encoder, set
the pipeline state, bind the parameters, dispatch the grid, end the
encoding scope. -/
def encodeCall (p : Nat) (ps : List Param) (grid : MTLSize × MTLSize) : List CBEvent :=
  [CBEvent.beginEncoding, CBEvent.setPipeline p] ++ (set_params ps).map CBEvent.bind
    ++ [CBEvent.dispatch grid.1 grid.2, CBEvent.endEncoding]

/-- Mirrors `call_unary_contiguous`: pipeline from `Source::Unary`, then
parameters `(length, input, output)` and a linear grid over `length`. -/
def call_unary_contiguous (d : Device) (st : RunState) (cb : List CBEvent)
    (kernel_name : String) (length : Nat) (input output : Nat) : CallResult :=
  match load_pipeline d st .Unary ⟨kernel_name, none⟩ with
  | (.error e, st1) => some (.error e, st1, cb)
  | (.ok p, st1) =>
    let ps := [Param.usizeP length, Param.bufP input, Param.bufP output]
    match linear_split (d.maxTotalThreads p) length with
    | none => none
    | some grid => some (.ok (), st1, cb ++ encodeCall p ps grid)

/-- Mirrors `call_unary_strided`: pipeline from `Source::Unary`, then
parameters `(length, num_dims, shape, strides, (input, offset),
(output, output_offset))` and a linear grid over the shape product. -/
def call_unary_strided (d : Device) (st : RunState) (cb : List CBEvent)
    (name : String) (shape : List Nat) (input : Nat) (strides : List Nat)
    (offset : Nat) (output : Nat) (output_offset : Nat) : CallResult :=
  match load_pipeline d st .Unary ⟨name, none⟩ with
  | (.error e, st1) => some (.error e, st1, cb)
  | (.ok p, st1) =>
    let num_dims := shape.length
    let length := shape.prod
    let ps := [Param.usizeP length, Param.usizeP num_dims, Param.sliceUsize shape,
      Param.sliceUsize strides, Param.bufOff input offset, Param.bufOff output output_offset]
    let width := shape.prod
    match linear_split (d.maxTotalThreads p) width with
    | none => none
    | some grid => some (.ok (), st1, cb ++ encodeCall p ps grid)

/-- Mirrors `call_binary_contiguous`: pipeline from `Source::Binary`,
parameters `(length, left, right, output)`, linear grid over `length`. -/
def call_binary_contiguous (d : Device) (st : RunState) (cb : List CBEvent)
    (kernel_name : String) (length : Nat) (left right output : Nat) : CallResult :=
  match load_pipeline d st .Binary ⟨kernel_name, none⟩ with
  | (.error e, st1) => some (.error e, st1, cb)
  | (.ok p, st1) =>
    let ps := [Param.usizeP length, Param.bufP left, Param.bufP right, Param.bufP output]
    match linear_split (d.maxTotalThreads p) length with
    | none => none
    | some grid => some (.ok (), st1, cb ++ encodeCall p ps grid)

/-- Mirrors `call_binary_strided`: pipeline from `Source::Binary`,
parameters `(length, num_dims, shape, left_strides, right_strides,
(left_input, left_offset), (right_input, right_offset), output)`, linear
grid over the shape product. -/
def call_binary_strided (d : Device) (st : RunState) (cb : List CBEvent)
    (name : String) (shape : List Nat) (left_input : Nat) (left_strides : List Nat)
    (left_offset : Nat) (right_input : Nat) (right_strides : List Nat)
    (right_offset : Nat) (output : Nat) : CallResult :=
  match load_pipeline d st .Binary ⟨name, none⟩ with
  | (.error e, st1) => some (.error e, st1, cb)
  | (.ok p, st1) =>
    let num_dims := shape.length
    let width := shape.prod
    let length := shape.prod
    let ps := [Param.usizeP length, Param.usizeP num_dims, Param.sliceUsize shape,
      Param.sliceUsize left_strides, Param.sliceUsize right_strides,
      Param.bufOff left_input left_offset, Param.bufOff right_input right_offset,
      Param.bufP output]
    match linear_split (d.maxTotalThreads p) width with
    | none => none
    | some grid => some (.ok (), st1, cb ++ encodeCall p ps grid)

/-- Mirrors `call_cast_contiguous`: pipeline from `Source::Cast`,
parameters `(length, (input, input_offset), output)`, linear grid over
`length`. -/
def call_cast_contiguous (d : Device) (st : RunState) (cb : List CBEvent)
    (kernel_name : String) (length : Nat) (input input_offset output : Nat) : CallResult :=
  match load_pipeline d st .Cast ⟨kernel_name, none⟩ with
  | (.error e, st1) => some (.error e, st1, cb)
  | (.ok p, st1) =>
    let ps := [Param.usizeP length, Param.bufOff input input_offset, Param.bufP output]
    match linear_split (d.maxTotalThreads p) length with
    | none => none
    | some grid => some (.ok (), st1, cb ++ encodeCall p ps grid)

/-- Mirrors `call_cast_strided`: pipeline from `Source::Cast`, parameters
`(length, shape.len(), shape, input_strides, (input, input_offset),
output)`, linear grid over `length = shape.prod`. -/
def call_cast_strided (d : Device) (st : RunState) (cb : List CBEvent)
    (kernel_name : String) (shape : List Nat) (input : Nat) (input_strides : List Nat)
    (input_offset : Nat) (output : Nat) : CallResult :=
  match load_pipeline d st .Cast ⟨kernel_name, none⟩ with
  | (.error e, st1) => some (.error e, st1, cb)
  | (.ok p, st1) =>
    let length := shape.prod
    let ps := [Param.usizeP length, Param.usizeP shape.length, Param.sliceUsize shape,
      Param.sliceUsize input_strides, Param.bufOff input input_offset, Param.bufP output]
    match linear_split (d.maxTotalThreads p) length with
    | none => none
    | some grid => some (.ok (), st1, cb ++ encodeCall p ps grid)

/-- Mirrors `call_reduce_contiguous`: pipeline from `Source::Reduce`,
`elements_to_sum = length / out_length` (division by zero panics),
parameters `(length, elements_to_sum, (input, input_offset), output)`,
and the policy-2 grid. -/
def call_reduce_contiguous (d : Device) (st : RunState) (cb : List CBEvent)
    (kernel_name : String) (length out_length : Nat)
    (input input_offset output : Nat) : CallResult :=
  match load_pipeline d st .Reduce ⟨kernel_name, none⟩ with
  | (.error e, st1) => some (.error e, st1, cb)
  | (.ok p, st1) =>
    match reduce_grid_policy (d.maxTotalThreads p) length out_length with
    | none => none
    | some grid =>
      let elements_to_sum := length / out_length
      let ps := [Param.usizeP length, Param.usizeP elements_to_sum,
        Param.bufOff input input_offset, Param.bufP output]
      some (.ok (), st1, cb ++ encodeCall p ps grid)

/-- Mirrors `call_last_softmax`: pipeline from `Source::Reduce`,
parameters `(length, elements_to_sum, input, output)`,
`out_length = length / elements_to_sum` (division by zero panics), and
the policy-3 grid. -/
def call_last_softmax (d : Device) (st : RunState) (cb : List CBEvent)
    (kernel_name : String) (length elements_to_sum : Nat)
    (input output : Nat) : CallResult :=
  match load_pipeline d st .Reduce ⟨kernel_name, none⟩ with
  | (.error e, st1) => some (.error e, st1, cb)
  | (.ok p, st1) =>
    match softmax_grid_policy (d.maxTotalThreads p) length elements_to_sum with
    | none => none
    | some grid =>
      let ps := [Param.usizeP length, Param.usizeP elements_to_sum,
        Param.bufP input, Param.bufP output]
      some (.ok (), st1, cb ++ encodeCall p ps grid)

/-- Mirrors `call_affine`: pipeline from `Source::Affine`, parameters
`(size, mul, add, input, output)` with `mul`/`add` given by their `f32`
bit patterns, linear grid over `size`. -/
def call_affine (d : Device) (st : RunState) (cb : List CBEvent)
    (name : String) (size : Nat) (input output : Nat) (mul add : Nat) : CallResult :=
  match load_pipeline d st .Affine ⟨name, none⟩ with
  | (.error e, st1) => some (.error e, st1, cb)
  | (.ok p, st1) =>
    let ps := [Param.usizeP size, Param.f32P mul, Param.f32P add,
      Param.bufP input, Param.bufP output]
    match linear_split (d.maxTotalThreads p) size with
    | none => none
    | some grid => some (.ok (), st1, cb ++ encodeCall p ps grid)

/-- Mirrors `call_affine_strided`: pipeline from `Source::Affine`,
`size = shape.prod`, parameters `(size, shape.len(), shape, input_stride,
mul, add, (input, input_offset), output)`, linear grid over `size`. -/
def call_affine_strided (d : Device) (st : RunState) (cb : List CBEvent)
    (name : String) (shape : List Nat) (input : Nat) (input_stride : List Nat)
    (input_offset : Nat) (output : Nat) (mul add : Nat) : CallResult :=
  match load_pipeline d st .Affine ⟨name, none⟩ with
  | (.error e, st1) => some (.error e, st1, cb)
  | (.ok p, st1) =>
    let size := shape.prod
    let ps := [Param.usizeP size, Param.usizeP shape.length, Param.sliceUsize shape,
      Param.sliceUsize input_stride, Param.f32P mul, Param.f32P add,
      Param.bufOff input input_offset, Param.bufP output]
    match linear_split (d.maxTotalThreads p) size with
    | none => none
    | some grid => some (.ok (), st1, cb ++ encodeCall p ps grid)

/-- Mirrors `call_where_cond_strided`: pipeline from `Source::Ternary`,
`size = shape.prod`, `rank = shape.len()`, parameters `(size, rank,
shape, cond_stride, left_stride, right_stride, (cond, cond_offset),
(left, left_offset), (right, right_offset), output)`, linear grid over
`size`. -/
def call_where_cond_strided (d : Device) (st : RunState) (cb : List CBEvent)
    (name : String) (shape : List Nat) (cond : Nat) (cond_stride : List Nat)
    (cond_offset : Nat) (left : Nat) (left_stride : List Nat) (left_offset : Nat)
    (right : Nat) (right_stride : List Nat) (right_offset : Nat)
    (output : Nat) : CallResult :=
  match load_pipeline d st .Ternary ⟨name, none⟩ with
  | (.error e, st1) => some (.error e, st1, cb)
  | (.ok p, st1) =>
    let size := shape.prod
    let rank := shape.length
    let ps := [Param.usizeP size, Param.usizeP rank, Param.sliceUsize shape,
      Param.sliceUsize cond_stride, Param.sliceUsize left_stride,
      Param.sliceUsize right_stride, Param.bufOff cond cond_offset,
      Param.bufOff left left_offset, Param.bufOff right right_offset,
      Param.bufP output]
    match linear_split (d.maxTotalThreads p) size with
    | none => none
    | some grid => some (.ok (), st1, cb ++ encodeCall p ps grid)

/-- Mirrors `call_index_select`: `left_size`, `right_size`,
`src_dim_size`, `dst_el` are computed before the pipeline is loaded and
slice-index the shape, panicking unless `dim < shape.len()`; pipeline
from `Source::Indexing`; parameters `(dst_el, left_size, src_dim_size,
right_size, ids_size, input, ids, output)`; linear grid over `dst_el`. -/
def call_index_select (d : Device) (st : RunState) (cb : List CBEvent)
    (name : String) (shape : List Nat) (ids_size : Nat) (dim : Nat)
    (input ids output : Nat) : CallResult :=
  if dim < shape.length then
    let left_size := (shape.take dim).prod
    let right_size := (shape.drop (dim + 1)).prod
    let src_dim_size := shape.getD dim 0
    let dst_el := ids_size * left_size * right_size
    match load_pipeline d st .Indexing ⟨name, none⟩ with
    | (.error e, st1) => some (.error e, st1, cb)
    | (.ok p, st1) =>
      let ps := [Param.usizeP dst_el, Param.usizeP left_size, Param.usizeP src_dim_size,
        Param.usizeP right_size, Param.usizeP ids_size,
        Param.bufP input, Param.bufP ids, Param.bufP output]
      match linear_split (d.maxTotalThreads p) dst_el with
      | none => none
      | some grid => some (.ok (), st1, cb ++ encodeCall p ps grid)
  else none

/-- Mirrors `call_mfa_gemm`: pipeline from
`Source::MetalFlashAttention`, then exactly the parameter list and
linear grid of `call_unary_strided`. -/
def call_mfa_gemm (d : Device) (st : RunState) (cb : List CBEvent)
    (name : String) (shape : List Nat) (input : Nat) (strides : List Nat)
    (offset : Nat) (output : Nat) (output_offset : Nat) : CallResult :=
  match load_pipeline d st .MetalFlashAttention ⟨name, none⟩ with
  | (.error e, st1) => some (.error e, st1, cb)
  | (.ok p, st1) =>
    let num_dims := shape.length
    let length := shape.prod
    let ps := [Param.usizeP length, Param.usizeP num_dims, Param.sliceUsize shape,
      Param.sliceUsize strides, Param.bufOff input offset, Param.bufOff output output_offset]
    let width := shape.prod
    match linear_split (d.maxTotalThreads p) width with
    | none => none
    | some grid => some (.ok (), st1, cb ++ encodeCall p ps grid)

/-- Bindings recorded on the command buffer by a dispatch call. -/
def recordedBinds (r : CallResult) : Option (List Binding) :=
  r.map fun x => x.2.2.filterMap fun e =>
    match e with
    | .bind b => some b
    | _ => none

/-- Dispatch grids recorded on the command buffer by a dispatch call. -/
def recordedDispatches (r : CallResult) : Option (List (MTLSize × MTLSize)) :=
  r.map fun x => x.2.2.filterMap fun e =>
    match e with
    | .dispatch a b => some (a, b)
    | _ => none

/-- A device on which every compilation step succeeds, with library
handle `10`, function handle `20`, pipeline handle `30`, and a
`max_total_threads_per_threadgroup` of `256`. -/
def devOk : Device :=
  { newLibraryWithSource := fun _ => .ok 10
    newLibraryWithData := fun _ => .ok 10
    getFunction := fun _ _ _ => .ok 20
    newComputePipelineState := fun _ => .ok 30
    maxTotalThreads := fun _ => 256 }

/-- A device on which every library compilation fails. -/
def devBad : Device :=
  { newLibraryWithSource := fun _ => .error "nope"
    newLibraryWithData := fun _ => .error "nope"
    getFunction := fun _ _ _ => .error "nofn"
    newComputePipelineState := fun _ => .error "nopipe"
    maxTotalThreads := fun _ => 256 }

/-- Registry state after one successful `load_pipeline` on `devOk` from
the empty state, for module `s` and plain name `n`. -/
def afterLoad (s : Source) (n : String) : RunState :=
  { libs := [(s, 10)], pipes := [(⟨n, none⟩, 30)], libCreates := [s],
    pipeInvokes := [⟨n, none⟩], pipeCreates := [⟨n, none⟩] }

/-- Ceiling-division coverage: for a positive width, width times the
ceiling of `N / width` is at least `N`. -/
theorem ceil_div_cover (N w : Nat) (hw : 1 ≤ w) : N ≤ (N + w - 1) / w * w := by
  rw [Nat.mul_comm]
  have hmod := Nat.mod_lt (N + w - 1) (show 0 < w by omega)
  have hdm := Nat.div_add_mod (N + w - 1) w
  omega

/-- C3: `linear_split` returns group width `min(M, N)` and group count
`ceil(N / width)`, ordered as `((count, 1, 1), (width, 1, 1))`, and the
grid covers the problem: `count * width >= N`. Stated for machine-
representable sizes (`N + M <= 2 ^ 64`), where the `u64` ceiling
numerator does not wrap. -/
theorem C3_linear_split_grid (M N : Nat) (hM : 1 ≤ M) (hN : 1 ≤ N)
    (hbound : N + M ≤ 2 ^ 64) :
    linear_split M N =
      some (⟨(N + min M N - 1) / min M N, 1, 1⟩, ⟨min M N, 1, 1⟩) ∧
    N ≤ (N + min M N - 1) / min M N * min M N := by
  have hw : 1 ≤ min M N := le_min hM hN
  have hlt : N + min M N - 1 < 2 ^ 64 := by
    have : min M N ≤ M := min_le_left _ _
    omega
  refine ⟨?_, ceil_div_cover N (min M N) hw⟩
  unfold linear_split
  simp only [if_neg (by omega : ¬ min M N = 0), Nat.mod_eq_of_lt hlt]

/-- Witness for C3 at the documented instance `N = 1000`, `M = 256`:
width `256`, group count `4`, covering `1024 ≥ 1000`. -/
theorem C3_witness :
    linear_split 256 1000 = some (⟨4, 1, 1⟩, ⟨256, 1, 1⟩) ∧
    1000 ≤ 4 * 256 := by
  have h := C3_linear_split_grid 256 1000 (by decide) (by decide) (by norm_num)
  simpa using h

/-- C4: `call_reduce_contiguous` with length `N`, out length `O` (with
`O ≥ 1` and `O` dividing `N`) records one dispatch with
`elements_per_output = N / O` bound as the second parameter, thread
group count `O`, and thread group size
`next_power_of_two(min(M, ceil(elements_per_output / 2)))` where `M` is
the pipeline threadgroup limit; moreover `(N / O) * O = N`. Stated for
machine-representable lengths (`N + 2 ≤ 2 ^ 64`). -/
theorem C4_reduce_contiguous_dispatch (d : Device) (st : RunState) (cb : List CBEvent)
    (kn : String) (N O input input_offset output : Nat) (p : Nat) (st1 : RunState)
    (hload : load_pipeline d st .Reduce ⟨kn, none⟩ = (.ok p, st1))
    (hO : 1 ≤ O) (hdvd : O ∣ N) (hbound : N + 2 ≤ 2 ^ 64) :
    call_reduce_contiguous d st cb kn N O input input_offset output =
      some (.ok (), st1, cb ++ encodeCall p
        [Param.usizeP N, Param.usizeP (N / O), Param.bufOff input input_offset,
          Param.bufP output]
        (⟨O, 1, 1⟩,
         ⟨next_power_of_two (min (d.maxTotalThreads p) ((N / O + 1) / 2)), 1, 1⟩)) ∧
    N / O * O = N := by
  have hdivle : N / O ≤ N := Nat.div_le_self N O
  have hlt : N / O + 2 - 1 < 2 ^ 64 := by omega
  constructor
  · unfold call_reduce_contiguous
    rw [hload]
    unfold reduce_grid_policy
    simp only [if_neg (by omega : ¬ O = 0), Nat.mod_eq_of_lt hlt]
    rfl
  · exact Nat.div_mul_cancel hdvd

/-- Witness for C4 at the documented instance `N = 1024`, `O = 4`,
`M = 256`: `elements_per_output = 256`, group size `128`, group count
`4`. -/
theorem C4_witness :
    call_reduce_contiguous devOk RunState.empty [] "fast_sum_float" 1024 4 5 0 6 =
      some (.ok (), afterLoad .Reduce "fast_sum_float", encodeCall 30
        [Param.usizeP 1024, Param.usizeP 256, Param.bufOff 5 0, Param.bufP 6]
        (⟨4, 1, 1⟩, ⟨128, 1, 1⟩)) ∧
    1024 / 4 * 4 = 1024 := by
  have h := C4_reduce_contiguous_dispatch devOk RunState.empty [] "fast_sum_float"
    1024 4 5 0 6 30 (afterLoad .Reduce "fast_sum_float") rfl (by decide)
    (by decide) (by norm_num)
  exact h

/-- C5: `call_last_softmax` with length `N` and `elements_to_sum = K ≥ 1`
records one dispatch with thread group count `N / K` and thread group
size `next_power_of_two(min(M, K))`; that size is a power of two and is
obtained by rounding up (it is at least `min(M, K)`). -/
theorem C5_last_softmax_dispatch (d : Device) (st : RunState) (cb : List CBEvent)
    (kn : String) (N K input output : Nat) (p : Nat) (st1 : RunState)
    (hload : load_pipeline d st .Reduce ⟨kn, none⟩ = (.ok p, st1))
    (hK : 1 ≤ K) :
    call_last_softmax d st cb kn N K input output =
      some (.ok (), st1, cb ++ encodeCall p
        [Param.usizeP N, Param.usizeP K, Param.bufP input, Param.bufP output]
        (⟨N / K, 1, 1⟩,
         ⟨next_power_of_two (min (d.maxTotalThreads p) K), 1, 1⟩)) ∧
    (∃ j, next_power_of_two (min (d.maxTotalThreads p) K) = 2 ^ j) ∧
    min (d.maxTotalThreads p) K ≤ next_power_of_two (min (d.maxTotalThreads p) K) := by
  refine ⟨?_, next_power_of_two_is_pow _, le_next_power_of_two _⟩
  unfold call_last_softmax
  rw [hload]
  unfold softmax_grid_policy
  simp only [if_neg (by omega : ¬ K = 0)]

/-- Witness for C5 at the documented instance `N = 4096`, `K = 1024`,
`M = 256`: group count `4`, group size `256`. -/
theorem C5_witness :
    call_last_softmax devOk RunState.empty [] "softmax_float" 4096 1024 5 6 =
      some (.ok (), afterLoad .Reduce "softmax_float", encodeCall 30
        [Param.usizeP 4096, Param.usizeP 1024, Param.bufP 5, Param.bufP 6]
        (⟨4, 1, 1⟩, ⟨256, 1, 1⟩)) ∧
    256 ≤ 256 := by
  have h := C5_last_softmax_dispatch devOk RunState.empty [] "softmax_float"
    4096 1024 5 6 30 (afterLoad .Reduce "softmax_float") rfl (by decide)
  exact ⟨h.1, le_refl 256⟩

/-- C6: `call_index_select` with `dim < rank` computes
`left_size = product(shape[..dim])`, `right_size =
product(shape[dim+1..])`, `src_dim_size = shape[dim]`, binds
`dst_el = ids_size * left_size * right_size` output elements, and
dispatches the linear policy over that output count. -/
theorem C6_index_select_sizes (d : Device) (st : RunState) (cb : List CBEvent)
    (name : String) (shape : List Nat) (ids_size dim input ids output : Nat)
    (p : Nat) (st1 : RunState)
    (hdim : dim < shape.length)
    (hload : load_pipeline d st .Indexing ⟨name, none⟩ = (.ok p, st1)) :
    call_index_select d st cb name shape ids_size dim input ids output =
      (match linear_split (d.maxTotalThreads p)
          (ids_size * (shape.take dim).prod * (shape.drop (dim + 1)).prod) with
        | none => none
        | some grid => some (.ok (), st1, cb ++ encodeCall p
            [Param.usizeP (ids_size * (shape.take dim).prod * (shape.drop (dim + 1)).prod),
              Param.usizeP (shape.take dim).prod, Param.usizeP (shape.getD dim 0),
              Param.usizeP (shape.drop (dim + 1)).prod, Param.usizeP ids_size,
              Param.bufP input, Param.bufP ids, Param.bufP output] grid)) ∧
    shape.getD dim 0 = shape.get ⟨dim, hdim⟩ := by
  constructor
  · unfold call_index_select
    rw [if_pos hdim, hload]
  · exact List.getD_eq_getElem shape 0 hdim

/-- Witness for C6 at the documented instance: shape `[2, 3, 4]`,
`dim = 1`, `ids_size = 5` gives `left_size = 2`, `right_size = 4`,
`dst_el = 40`, dispatched over `40` elements. -/
theorem C6_witness :
    call_index_select devOk RunState.empty [] "is_u32_f32" [2, 3, 4] 5 1 7 8 9 =
      some (.ok (), afterLoad .Indexing "is_u32_f32", encodeCall 30
        [Param.usizeP 40, Param.usizeP 2, Param.usizeP 3, Param.usizeP 4,
          Param.usizeP 5, Param.bufP 7, Param.bufP 8, Param.bufP 9]
        (⟨1, 1, 1⟩, ⟨40, 1, 1⟩)) := by
  have h := C6_index_select_sizes devOk RunState.empty [] "is_u32_f32" [2, 3, 4]
    5 1 7 8 9 30 (afterLoad .Indexing "is_u32_f32") (by decide) rfl
  exact h.1

/-- C10: the grid calculators are not total at zero problem sizes: a zero
element count makes `linear_split` divide by zero, a zero `out_length`
makes the `call_reduce_contiguous` sizing divide by zero, and a zero
`elements_to_sum` makes the `call_last_softmax` sizing divide by zero;
each aborts (`none`, the embedded panic) instead of returning a typed
error, so the dispatch entry points carry the corresponding unstated
nonzero preconditions. -/
theorem C10_zero_size_panics :
    (∀ M, linear_split M 0 = none) ∧
    (∀ M N, reduce_grid_policy M N 0 = none) ∧
    (∀ M N, softmax_grid_policy M N 0 = none) ∧
    (∀ d st cb n input output p st1,
      load_pipeline d st .Unary ⟨n, none⟩ = (.ok p, st1) →
      call_unary_contiguous d st cb n 0 input output = none) ∧
    (∀ d st cb n N input input_offset output p st1,
      load_pipeline d st .Reduce ⟨n, none⟩ = (.ok p, st1) →
      call_reduce_contiguous d st cb n N 0 input input_offset output = none) ∧
    (∀ d st cb n N input output p st1,
      load_pipeline d st .Reduce ⟨n, none⟩ = (.ok p, st1) →
      call_last_softmax d st cb n N 0 input output = none) := by
  refine ⟨fun M => by simp [linear_split],
    fun M N => by simp [reduce_grid_policy],
    fun M N => by simp [softmax_grid_policy], ?_, ?_, ?_⟩
  · intro d st cb n input output p st1 hload
    unfold call_unary_contiguous
    rw [hload]
    simp [linear_split]
  · intro d st cb n N input input_offset output p st1 hload
    unfold call_reduce_contiguous
    rw [hload]
    simp [reduce_grid_policy]
  · intro d st cb n N input output p st1 hload
    unfold call_last_softmax
    rw [hload]
    simp [softmax_grid_policy]

/-- Witness for C10: on a device where compilation succeeds, a
zero-length unary dispatch and a zero `out_length` reduction abort
rather than returning a typed error. -/
theorem C10_witness :
    call_unary_contiguous devOk RunState.empty [] "cos_float" 0 1 2 = none ∧
    call_reduce_contiguous devOk RunState.empty [] "fast_sum_float" 1024 0 5 0 6 = none := by
  refine ⟨?_, ?_⟩
  · exact C10_zero_size_panics.2.2.2.1 devOk RunState.empty [] "cos_float" 1 2 30
      (afterLoad .Unary "cos_float") rfl
  · exact C10_zero_size_panics.2.2.2.2.1 devOk RunState.empty [] "fast_sum_float" 1024 5 0 6 30
      (afterLoad .Reduce "fast_sum_float") rfl

/-- The bindings produced from a starting slot are the per-element
canonical bindings at consecutive slots. -/
theorem set_params_from_get (ps : List Param) :
    ∀ j i p, ps[i]? = some p →
      (set_params_from j ps)[i]? = some (set_param (j + i) p) := by
  induction ps with
  | nil => intro j i p h; simp at h
  | cons q qs ih =>
    intro j i p h
    cases i with
    | zero =>
      simp at h
      simp [set_params_from, h]
    | succ i =>
      simp at h
      have := ih (j + 1) i p h
      simpa [set_params_from, Nat.add_assoc, Nat.add_comm 1 i] using this

/-- The encoder emits exactly one binding per argument. -/
theorem set_params_from_length (ps : List Param) :
    ∀ j, (set_params_from j ps).length = ps.length := by
  induction ps with
  | nil => intro j; rfl
  | cons q qs ih => intro j; simp [set_params_from, ih]

/-- C8: `set_params!` binds the i-th argument (0-based, in call order) to
positional slot i, one binding per argument, and each argument kind uses
its single canonical rule: `usize`/`u32`/`f32` scalars via `set_bytes`
with their exact byte sizes (8, 4, 4), a `&[usize]` span via `set_bytes`
with byte size eight times its length, a bare buffer via `set_buffer` at
offset 0, and a buffer-offset pair via `set_buffer` at that offset. -/
theorem C8_set_params_slots :
    (∀ ps : List Param, (set_params ps).length = ps.length) ∧
    (∀ (ps : List Param) (i : Nat) (p : Param), ps[i]? = some p →
      (set_params ps)[i]? = some (set_param i p)) ∧
    (∀ i p, (set_param i p).position = i) ∧
    (∀ i v, set_param i (.usizeP v) = .bytes i 8 [v]) ∧
    (∀ i v, set_param i (.u32P v) = .bytes i 4 [v]) ∧
    (∀ i v, set_param i (.f32P v) = .bytes i 4 [v]) ∧
    (∀ i vs, set_param i (.sliceUsize vs) = .bytes i (8 * vs.length) vs) ∧
    (∀ i b, set_param i (.bufP b) = .buffer i b 0) ∧
    (∀ i b o, set_param i (.bufOff b o) = .buffer i b o) := by
  refine ⟨fun ps => set_params_from_length ps 0,
    fun ps i p h => by simpa using set_params_from_get ps 0 i p h,
    fun i p => ?_, fun i v => rfl, fun i v => rfl, fun i v => rfl,
    fun i vs => rfl, fun i b => rfl, fun i b o => rfl⟩
  cases p <;> rfl

/-- Witness for C8 on a concrete argument list: the third argument (a
bare buffer) lands in slot 2 bound at offset 0, and the fourth (a
buffer-offset pair) in slot 3 at its offset. -/
theorem C8_witness :
    (set_params [Param.usizeP 7, Param.sliceUsize [2, 3], Param.bufP 5,
        Param.bufOff 6 9])[2]? = some (.buffer 2 5 0) ∧
    (set_params [Param.usizeP 7, Param.sliceUsize [2, 3], Param.bufP 5,
        Param.bufOff 6 9])[3]? = some (.buffer 3 6 9) := by
  constructor
  · exact C8_set_params_slots.2.1
      [Param.usizeP 7, Param.sliceUsize [2, 3], Param.bufP 5, Param.bufOff 6 9]
      2 (Param.bufP 5) rfl
  · exact C8_set_params_slots.2.1
      [Param.usizeP 7, Param.sliceUsize [2, 3], Param.bufP 5, Param.bufOff 6 9]
      3 (Param.bufOff 6 9) rfl

/-- Specialization key with one indexed float constant of value `1.0f32`
(bit pattern `0x3F800000`). -/
def keyFloatOne : KernelKey :=
  ⟨"sgemm", some ⟨[(.index 0, .float 0x3F800000)]⟩⟩

/-- Specialization key identical to `keyFloatOne` except the float
constant is `2.0f32` (bit pattern `0x40000000`). -/
def keyFloatTwo : KernelKey :=
  ⟨"sgemm", some ⟨[(.index 0, .float 0x40000000)]⟩⟩

/-- One unequal corresponding element makes the element-wise list
equality false, whatever the rest of the lists contain. -/
theorem listEqBy_false_of_elem {α : Type} (f : α → α → Bool) :
    ∀ (l1 l2 : List α) (i : Nat) (a b : α), l1[i]? = some a → l2[i]? = some b →
      f a b = false → listEqBy f l1 l2 = false := by
  intro l1
  induction l1 with
  | nil =>
    intro l2 i a b h1 h2 hf
    simp at h1
  | cons x t1 ih =>
    intro l2 i a b h1 h2 hf
    cases l2 with
    | nil => rfl
    | cons y t2 =>
      cases i with
      | zero =>
        simp at h1 h2
        subst h1
        subst h2
        simp [listEqBy, hf]
      | succ i =>
        simp at h1 h2
        simp [listEqBy, ih t2 i a b h1 h2 hf]

/-- C2, counterexample: two keys with identical names and constant lists
except for a different float constant value feed every hasher the same
stream (hence hash to the same value and land in the same bucket), yet
compare as UNEQUAL under the cache equality rule — the derived
element-wise `PartialEq`, which compares float constants by IEEE
value — contradicting the claim that they also compare as equal. The
floats `1.0` and `2.0` are ordinary distinct IEEE values. -/
theorem C2_counterexample :
    kernelKeyFeed keyFloatOne = kernelKeyFeed keyFloatTwo ∧
    kernelKeyEq keyFloatOne keyFloatTwo = false := by
  constructor
  · rfl
  · decide

/-- Element-wise compatibility used in the amended C2: same identifier,
and either both values are floats (of any value) or the values are
structurally equal. -/
def floatCompatible (a b : ConstantValueId × ConstantValue) : Prop :=
  a.1 = b.1 ∧ ((∃ x y, a.2 = ConstantValue.float x ∧ b.2 = ConstantValue.float y) ∨ a.2 = b.2)

/-- C2, amended: two keys with identical names and identical constant
lists except for float constant values hash to the same value (floats
contribute nothing to the hash stream), so they address the same
pipeline-cache bucket; but whenever some corresponding pair of float
constants compares unequal as IEEE values — as any two ordinary
distinct floats such as `1.0` and `2.0` do — the keys compare as
UNEQUAL under the cache equality rule (the derived `PartialEq`) and
therefore address distinct cache entries. The only value-equal-yet-
bitwise-distinct caveat is the float zero: keys differing solely in the
sign of a zero float constant still compare equal, shown by the last
conjunct. -/
theorem C2_amended_float_insensitive_hash (n : String)
    (cs1 cs2 : List (ConstantValueId × ConstantValue))
    (hcompat : List.Forall₂ floatCompatible cs1 cs2) :
    kernelKeyFeed ⟨n, some ⟨cs1⟩⟩ = kernelKeyFeed ⟨n, some ⟨cs2⟩⟩ ∧
    (∀ (i : Nat) (a b : ConstantValueId × ConstantValue),
      cs1[i]? = some a → cs2[i]? = some b → constantValueEq a.2 b.2 = false →
      kernelKeyEq ⟨n, some ⟨cs1⟩⟩ ⟨n, some ⟨cs2⟩⟩ = false) ∧
    kernelKeyEq ⟨n, some ⟨[(.index 0, .float 0x00000000)]⟩⟩
      ⟨n, some ⟨[(.index 0, .float 0x80000000)]⟩⟩ = true := by
  refine ⟨?_, ?_, ?_⟩
  · unfold kernelKeyFeed constantValuesFeed
    have hflat : (cs1.map fun p => constantValueIdFeed p.1 ++ constantValueFeed p.2).flatten
        = (cs2.map fun p => constantValueIdFeed p.1 ++ constantValueFeed p.2).flatten := by
      induction hcompat with
      | nil => rfl
      | cons hab h ih =>
        rename_i a b l1 l2
        obtain ⟨hid, hval⟩ := hab
        have hfeed : constantValueFeed a.2 = constantValueFeed b.2 := by
          rcases hval with ⟨x, y, hx, hy⟩ | heq
          · rw [hx, hy]
            rfl
          · rw [heq]
        simp only [List.map_cons, List.flatten_cons, hid, hfeed, ih]
    have hlen : cs1.length = cs2.length := hcompat.length_eq
    simp [hlen, hflat]
  · intro i a b h1 h2 hf
    have hpair : constantPairEq a b = false := by
      unfold constantPairEq
      rw [hf]
      simp
    have hlist := listEqBy_false_of_elem constantPairEq cs1 cs2 i a b h1 h2 hpair
    simp [kernelKeyEq, optionEqBy, constantValuesEq, hlist]
  · simp [kernelKeyEq, optionEqBy, constantValuesEq, listEqBy, constantPairEq,
      constantValueEq, f32Eq, f32IsNaN]

/-- Witness for the amended C2 at a concrete pair (a named float
constant this time): identical hash streams, unequal keys under the
cache equality rule, and the float-zero caveat at the same name. -/
theorem C2_witness :
    kernelKeyFeed ⟨"conv", some ⟨[(.name "alpha", .float 0x3F000000)]⟩⟩ =
      kernelKeyFeed ⟨"conv", some ⟨[(.name "alpha", .float 0x3FC00000)]⟩⟩ ∧
    kernelKeyEq ⟨"conv", some ⟨[(.name "alpha", .float 0x3F000000)]⟩⟩
      ⟨"conv", some ⟨[(.name "alpha", .float 0x3FC00000)]⟩⟩ = false ∧
    kernelKeyEq ⟨"conv", some ⟨[(.index 0, .float 0x00000000)]⟩⟩
      ⟨"conv", some ⟨[(.index 0, .float 0x80000000)]⟩⟩ = true := by
  have h := C2_amended_float_insensitive_hash "conv"
    [(.name "alpha", .float 0x3F000000)] [(.name "alpha", .float 0x3FC00000)]
    (List.Forall₂.cons ⟨rfl, Or.inl ⟨0x3F000000, 0x3FC00000, rfl, rfl⟩⟩ List.Forall₂.nil)
  refine ⟨h.1, ?_, h.2.2⟩
  exact h.2.1 0 (.name "alpha", .float 0x3F000000) (.name "alpha", .float 0x3FC00000)
    rfl rfl (by decide)

/-- C7: for every operation-family entry point, if obtaining the compiled
pipeline fails, the call returns that error before any compute command
encoder is created: the command buffer is returned exactly as it was,
with no encoding scope opened, and no retry is performed (each entry
point consults `load_pipeline` exactly once). For `call_index_select`
this is stated for `dim < rank`, the region where the size computations
preceding the pipeline load do not panic. -/
theorem C7_pipeline_error_no_encoding :
    (∀ d st cb n length input output e st1,
      load_pipeline d st .Unary ⟨n, none⟩ = (.error e, st1) →
      call_unary_contiguous d st cb n length input output = some (.error e, st1, cb)) ∧
    (∀ d st cb n shape input strides offset output ooff e st1,
      load_pipeline d st .Unary ⟨n, none⟩ = (.error e, st1) →
      call_unary_strided d st cb n shape input strides offset output ooff =
        some (.error e, st1, cb)) ∧
    (∀ d st cb n length left right output e st1,
      load_pipeline d st .Binary ⟨n, none⟩ = (.error e, st1) →
      call_binary_contiguous d st cb n length left right output = some (.error e, st1, cb)) ∧
    (∀ d st cb n shape li ls lo ri rs ro output e st1,
      load_pipeline d st .Binary ⟨n, none⟩ = (.error e, st1) →
      call_binary_strided d st cb n shape li ls lo ri rs ro output =
        some (.error e, st1, cb)) ∧
    (∀ d st cb n length input ioff output e st1,
      load_pipeline d st .Cast ⟨n, none⟩ = (.error e, st1) →
      call_cast_contiguous d st cb n length input ioff output = some (.error e, st1, cb)) ∧
    (∀ d st cb n shape input istr ioff output e st1,
      load_pipeline d st .Cast ⟨n, none⟩ = (.error e, st1) →
      call_cast_strided d st cb n shape input istr ioff output = some (.error e, st1, cb)) ∧
    (∀ d st cb n length olen input ioff output e st1,
      load_pipeline d st .Reduce ⟨n, none⟩ = (.error e, st1) →
      call_reduce_contiguous d st cb n length olen input ioff output =
        some (.error e, st1, cb)) ∧
    (∀ d st cb n length k input output e st1,
      load_pipeline d st .Reduce ⟨n, none⟩ = (.error e, st1) →
      call_last_softmax d st cb n length k input output = some (.error e, st1, cb)) ∧
    (∀ d st cb n size input output mul add e st1,
      load_pipeline d st .Affine ⟨n, none⟩ = (.error e, st1) →
      call_affine d st cb n size input output mul add = some (.error e, st1, cb)) ∧
    (∀ d st cb n shape input istr ioff output mul add e st1,
      load_pipeline d st .Affine ⟨n, none⟩ = (.error e, st1) →
      call_affine_strided d st cb n shape input istr ioff output mul add =
        some (.error e, st1, cb)) ∧
    (∀ d st cb n shape cond cstr coff left lstr loff right rstr roff output e st1,
      load_pipeline d st .Ternary ⟨n, none⟩ = (.error e, st1) →
      call_where_cond_strided d st cb n shape cond cstr coff left lstr loff right rstr roff
        output = some (.error e, st1, cb)) ∧
    (∀ d st cb n shape ids_size dim input ids output e st1,
      dim < List.length shape →
      load_pipeline d st .Indexing ⟨n, none⟩ = (.error e, st1) →
      call_index_select d st cb n shape ids_size dim input ids output =
        some (.error e, st1, cb)) ∧
    (∀ d st cb n shape input strides offset output ooff e st1,
      load_pipeline d st .MetalFlashAttention ⟨n, none⟩ = (.error e, st1) →
      call_mfa_gemm d st cb n shape input strides offset output ooff =
        some (.error e, st1, cb)) := by
  refine ⟨?_, ?_, ?_, ?_, ?_, ?_, ?_, ?_, ?_, ?_, ?_, ?_, ?_⟩
  · intro d st cb n length input output e st1 h
    unfold call_unary_contiguous
    rw [h]
  · intro d st cb n shape input strides offset output ooff e st1 h
    unfold call_unary_strided
    rw [h]
  · intro d st cb n length left right output e st1 h
    unfold call_binary_contiguous
    rw [h]
  · intro d st cb n shape li ls lo ri rs ro output e st1 h
    unfold call_binary_strided
    rw [h]
  · intro d st cb n length input ioff output e st1 h
    unfold call_cast_contiguous
    rw [h]
  · intro d st cb n shape input istr ioff output e st1 h
    unfold call_cast_strided
    rw [h]
  · intro d st cb n length olen input ioff output e st1 h
    unfold call_reduce_contiguous
    rw [h]
  · intro d st cb n length k input output e st1 h
    unfold call_last_softmax
    rw [h]
  · intro d st cb n size input output mul add e st1 h
    unfold call_affine
    rw [h]
  · intro d st cb n shape input istr ioff output mul add e st1 h
    unfold call_affine_strided
    rw [h]
  · intro d st cb n shape cond cstr coff left lstr loff right rstr roff output e st1 h
    unfold call_where_cond_strided
    rw [h]
  · intro d st cb n shape ids_size dim input ids output e st1 hdim h
    unfold call_index_select
    rw [if_pos hdim, h]
  · intro d st cb n shape input strides offset output ooff e st1 h
    unfold call_mfa_gemm
    rw [h]

/-- Witness for C7: on a device whose library compilation fails, a unary
dispatch and an index-select dispatch return the load error with the
command buffer exactly as supplied (here: empty, no events recorded). -/
theorem C7_witness :
    call_unary_contiguous devBad RunState.empty [] "cos_float" 10 1 2 =
      some (.error (.loadLibraryError "nope"), RunState.empty, []) ∧
    call_index_select devBad RunState.empty [] "is_u32_f32" [2, 3, 4] 5 1 7 8 9 =
      some (.error (.loadLibraryError "nope"), RunState.empty, []) := by
  constructor
  · exact C7_pipeline_error_no_encoding.1 devBad RunState.empty [] "cos_float" 10 1 2
      (.loadLibraryError "nope") RunState.empty rfl
  · exact C7_pipeline_error_no_encoding.2.2.2.2.2.2.2.2.2.2.2.1 devBad RunState.empty []
      "is_u32_f32" [2, 3, 4] 5 1 7 8 9 (.loadLibraryError "nope") RunState.empty
      (by decide) rfl

/-- C9: `call_mfa_gemm` records exactly the parameter bindings and the
dispatch grid that `call_unary_strided` records for the same
shape/strides/offsets/buffers (whenever the two pipelines report the
same threadgroup limit, which is a property of the device, not of the
call); and its module always resolves to the precompiled binary blob:
`Source::MetalFlashAttention` maps to the `Data` library definition and
a cache miss for it goes through `new_library_with_data`, never through
textual source compilation. -/
theorem C9_mfa_matches_unary_strided (d : Device) (st : RunState) (cb : List CBEvent)
    (n : String) (shape : List Nat) (input : Nat) (strides : List Nat)
    (offset output ooff : Nat) (p1 p2 : Nat) (st1 st2 : RunState)
    (h1 : load_pipeline d st .MetalFlashAttention ⟨n, none⟩ = (.ok p1, st1))
    (h2 : load_pipeline d st .Unary ⟨n, none⟩ = (.ok p2, st2))
    (hM : d.maxTotalThreads p1 = d.maxTotalThreads p2) :
    recordedBinds (call_mfa_gemm d st cb n shape input strides offset output ooff) =
      recordedBinds (call_unary_strided d st cb n shape input strides offset output ooff) ∧
    recordedDispatches (call_mfa_gemm d st cb n shape input strides offset output ooff) =
      recordedDispatches (call_unary_strided d st cb n shape input strides offset output ooff) ∧
    get_library_source .MetalFlashAttention = .dataDef .mfaAsset ∧
    (∀ (d0 : Device) (st0 : RunState),
      alookup st0.libs .MetalFlashAttention = none →
      load_library d0 st0 .MetalFlashAttention =
        match d0.newLibraryWithData .mfaAsset with
        | .error e => (.error (.loadLibraryError e), st0)
        | .ok lib => (.ok lib,
            { st0 with
                libs := (.MetalFlashAttention, lib) :: st0.libs,
                libCreates := st0.libCreates ++ [.MetalFlashAttention] })) := by
  refine ⟨?_, ?_, rfl, ?_⟩
  · unfold call_mfa_gemm call_unary_strided
    rw [h1, h2]
    dsimp only
    rw [hM]
    cases linear_split (d.maxTotalThreads p2) shape.prod with
    | none => rfl
    | some grid => simp [recordedBinds, encodeCall, List.filterMap_append]
  · unfold call_mfa_gemm call_unary_strided
    rw [h1, h2]
    dsimp only
    rw [hM]
    cases linear_split (d.maxTotalThreads p2) shape.prod with
    | none => rfl
    | some grid => simp [recordedDispatches, encodeCall, List.filterMap_append]
  · intro d0 st0 hmiss
    unfold load_library compileLibrary
    rw [hmiss]
    rfl

/-- Witness for C9 on the all-ok device with a concrete strided shape:
the recorded bindings and dispatch grids of the two calls agree. -/
theorem C9_witness :
    recordedBinds (call_mfa_gemm devOk RunState.empty [] "hgemm" [2, 3] 1 [3, 1] 0 2 0) =
      recordedBinds (call_unary_strided devOk RunState.empty [] "hgemm" [2, 3] 1 [3, 1] 0 2 0) ∧
    recordedDispatches (call_mfa_gemm devOk RunState.empty [] "hgemm" [2, 3] 1 [3, 1] 0 2 0) =
      recordedDispatches
        (call_unary_strided devOk RunState.empty [] "hgemm" [2, 3] 1 [3, 1] 0 2 0) := by
  have h := C9_mfa_matches_unary_strided devOk RunState.empty [] "hgemm" [2, 3] 1 [3, 1]
    0 2 0 30 30 (afterLoad .MetalFlashAttention "hgemm") (afterLoad .Unary "hgemm")
    rfl rfl rfl
  exact ⟨h.1, h.2.1⟩

